import Mathlib

/-!
# Verification of the Microsoft auth-core specification against the source

Shallow embedding of the parts of `THE_ROBUST_MICROSOFT` that the frozen
claims are about:

* `ResponseAnalyzer.getAuthState` (microsoft-auth.js, response classifier)
* `HttpSession` metadata / export / import (microsoft-auth.js)
* `MicrosoftAuth._followRedirects` (microsoft-auth.js, redirect loop)
* `createMicrosoftAuthUrl` (decode.js, PKCE)
* `MicrosoftAuth._getInitialPage` (microsoft-auth.js)
* `OutlookOTPFetcher.extractOTPFromPreview`, `extractOTPFromStartupData`,
  `findMicrosoftOTP` (model/db.js)
* `MicrosoftAuth._getOutlookTokens` (microsoft-auth.js, retry logic)

JavaScript strings are embedded as Lean `String`/`List Char`; machine
integers do not occur (all arithmetic is on small naturals or epoch-millis
timestamps, embedded as `Nat`/`Int`); JSON values are embedded as the
inductive `JValue` with JavaScript truthiness made explicit.
-/

namespace MsAuth

/-- JS `\w` character class (ASCII word character), used by `\b`. -/
def isWordChar (c : Char) : Bool :=
  c.isAlpha || c.isDigit || c == '_'

/-- JS `\s` for the whitespace forms that occur in the embedded texts. -/
def isSpaceChar (c : Char) : Bool :=
  c == ' ' || c == '\t' || c == '\n' || c == '\r' ||
  c == (Char.ofNat 12) || c == (Char.ofNat 11)

/-- Embeds `String.prototype.toLowerCase`, restricted to the characters occurring in
the embedded pattern literals: ASCII plus the accented/Cyrillic letters used
by the multi-language OTP patterns. -/
def lowerChar (c : Char) : Char :=
  if c == 'Ó' then 'ó'
  else if c == 'К' then 'к'
  else if c == 'О' then 'о'
  else if c == 'Д' then 'д'
  else c.toLower

/-- Does `pat` start `l`? -/
def isPrefixL : List Char → List Char → Bool
  | [], _ => true
  | _ :: _, [] => false
  | p :: ps, c :: cs => p == c && isPrefixL ps cs

/-- Does `pat` occur somewhere inside `l`? -/
def isInfixL (pat : List Char) : List Char → Bool
  | [] => isPrefixL pat []
  | c :: cs => isPrefixL pat (c :: cs) || isInfixL pat cs

/-- Embeds `a.includes(b)` on JS strings (case sensitive). -/
def containsStr (hay pat : String) : Bool :=
  isInfixL pat.toList hay.toList

/-- Lowercased containment, for `x.toLowerCase().includes(pat)` checks. -/
def containsLower (hay pat : String) : Bool :=
  isInfixL (pat.toList.map lowerChar) (hay.toList.map lowerChar)

/-! ## Response classifier: `ResponseAnalyzer.getAuthState`
(microsoft-auth.js lines 306-353) -/

/-- The `AuthState` string-constant table of microsoft-auth.js. -/
inductive AuthState where
  | KMSI_PAGE_OK
  | INITIAL_PAGE_OK
  | INVALID_CREDENTIALS
  | ACCOUNT_LOCKED
  | REAUTH_NEEDED
  | UNKNOWN_STATE
  | PASSKEY_INTERRUPT
  | PRIVACY_NOTICE
  | AUTO_SUBMIT_FORM_DETECTED
  | MANUAL_REDIRECT_DETECTED
  | NEED_TO_ADD_ALT
  | MICROSOFT_HOME_PAGE
  | MICROSOFT_UPDATE_TERM
deriving DecidableEq, Repr

/-- The string value each `AuthState` constant holds in the source. -/
def AuthState.str : AuthState → String
  | .KMSI_PAGE_OK => "KMSI_PAGE_OK"
  | .INITIAL_PAGE_OK => "INITIAL_PAGE_OK"
  | .INVALID_CREDENTIALS => "INVALID_CREDENTIALS"
  | .ACCOUNT_LOCKED => "ACCOUNT_LOCKED"
  | .REAUTH_NEEDED => "REAUTH_NEEDED"
  | .UNKNOWN_STATE => "UNKNOWN_STATE"
  | .PASSKEY_INTERRUPT => "PASSKEY_INTERRUPT"
  | .PRIVACY_NOTICE => "PRIVACY_NOTICE"
  | .AUTO_SUBMIT_FORM_DETECTED => "AUTO_SUBMIT_FORM_DETECTED"
  | .MANUAL_REDIRECT_DETECTED => "MANUAL_REDIRECT_DETECTED"
  | .NEED_TO_ADD_ALT => "NEED_TO_ADD_ALT"
  | .MICROSOFT_HOME_PAGE => "MICROSOFT_HOME_PAGE"
  | .MICROSOFT_UPDATE_TERM => "MICROSOFT_UPDATE_TERM"

/-- The fields of the `ServerData` blob that `getAuthState` reads
(`sErrTxt`, `sSigninName`, `sFTTag`), as extracted by
`HtmlParser.extractServerData`. -/
structure ServerData where
  sErrTxt : Option String
  sSigninName : Option String
  sFTTag : Option String
deriving DecidableEq, Repr

/-- An HTTP response at the interface `getAuthState` observes: status,
`headers.location`, the raw body string, the parsed `ServerData` blob
(`none` when the regex/JSON extraction fails), the `form#fmHF` element's
`action` attribute (`none` when the form is absent, `some none` when the
form has no `action`), and the `<title>` text (cheerio's `.text()`,
`""` when absent). -/
structure ClsResponse where
  status : Nat
  location : Option String
  body : String
  serverData : Option ServerData
  fmHFAction : Option (Option String)
  title : String
deriving DecidableEq, Repr

/-- Check `serverData?.sErrTxt?.includes('incorrect')`. -/
def errTxtIncorrect (sd : Option ServerData) : Bool :=
  match sd with
  | none => false
  | some d =>
    match d.sErrTxt with
    | none => false
    | some t => containsStr t "incorrect"

/-- JS truthiness of `serverData?.sSigninName` (an absent field and the
empty string are both falsy). -/
def signinNameTruthy (sd : Option ServerData) : Bool :=
  match sd with
  | none => false
  | some d => match d.sSigninName with
    | none => false
    | some s => s ≠ ""

/-- JS truthiness of `serverData?.sFTTag`. -/
def ftTagTruthy (sd : Option ServerData) : Bool :=
  match sd with
  | none => false
  | some d => match d.sFTTag with
    | none => false
    | some s => s ≠ ""

/-- Check `form.length > 0 && form.attr('action')?.includes('privacynotice.account.microsoft.com')`. -/
def fmHFPrivacy (a : Option (Option String)) : Bool :=
  match a with
  | some (some act) => containsStr act "privacynotice.account.microsoft.com"
  | _ => false

/-- Function `ResponseAnalyzer.getAuthState`, transcribed check for check.  The
`.error` case is the `TypeError` the source raises when `status == 302`
but `headers.location` is `undefined` (it dereferences
`this.responce.headers.location.includes(...)` unconditionally inside the
`&&`). -/
def getAuthState (r : ClsResponse) : Except String AuthState :=
  match (if r.status == 302 then
           match r.location with
           | none => none
           | some l => some (containsStr l "account.live.com")
         else some false) with
  | none => .error "TypeError: cannot read property includes of undefined"
  | some redirHome =>
    .ok <|
      if redirHome then .MICROSOFT_HOME_PAGE
      else if errTxtIncorrect r.serverData then .INVALID_CREDENTIALS
      else if containsStr r.body "/Abuse" then .ACCOUNT_LOCKED
      else if containsStr r.body "identity/confirm" then .REAUTH_NEEDED
      else if containsStr r.body "interrupt/passkey" then .PASSKEY_INTERRUPT
      else if containsStr r.body "proofs/Add" then .NEED_TO_ADD_ALT
      else if containsStr r.body "/tou/accrue" then .MICROSOFT_UPDATE_TERM
      else if fmHFPrivacy r.fmHFAction then .PRIVACY_NOTICE
      else if signinNameTruthy r.serverData then .KMSI_PAGE_OK
      else if ftTagTruthy r.serverData then .INITIAL_PAGE_OK
      else if containsStr r.title "Microsoft account | Home" then .MICROSOFT_HOME_PAGE
      else .UNKNOWN_STATE

/-- First-match evaluation of an ordered marker list, the precedence
discipline the spec describes. -/
def firstMatch (markers : List ((ClsResponse → Bool) × AuthState)) (r : ClsResponse) : AuthState :=
  match markers with
  | [] => .UNKNOWN_STATE
  | (p, s) :: rest => if p r then s else firstMatch rest r

/-- Marker (1) as the source implements it: status exactly 302 and
`location` containing the account-home host.  A missing `location` is
treated as no match here; the code-level `TypeError` case is excluded by
hypothesis in the theorem. -/
def marker302Home (r : ClsResponse) : Bool :=
  r.status == 302 && (match r.location with
    | none => false
    | some l => containsStr l "account.live.com")

/-- Marker (1) as the claim words it: a 30x redirect (any 3xx status)
pointing at the provider's account-home path. -/
def marker30xHome (r : ClsResponse) : Bool :=
  300 ≤ r.status && r.status ≤ 399 && (match r.location with
    | none => false
    | some l => containsStr l "account.live.com")

/-- The classifier's marker list in the code's evaluation order, with
marker (1) as the code has it (status 302 exactly). -/
def codeMarkers : List ((ClsResponse → Bool) × AuthState) :=
  [ (marker302Home, .MICROSOFT_HOME_PAGE),
    (fun r => errTxtIncorrect r.serverData, .INVALID_CREDENTIALS),
    (fun r => containsStr r.body "/Abuse", .ACCOUNT_LOCKED),
    (fun r => containsStr r.body "identity/confirm", .REAUTH_NEEDED),
    (fun r => containsStr r.body "interrupt/passkey", .PASSKEY_INTERRUPT),
    (fun r => containsStr r.body "proofs/Add", .NEED_TO_ADD_ALT),
    (fun r => containsStr r.body "/tou/accrue", .MICROSOFT_UPDATE_TERM),
    (fun r => fmHFPrivacy r.fmHFAction, .PRIVACY_NOTICE),
    (fun r => signinNameTruthy r.serverData, .KMSI_PAGE_OK),
    (fun r => ftTagTruthy r.serverData, .INITIAL_PAGE_OK),
    (fun r => containsStr r.title "Microsoft account | Home", .MICROSOFT_HOME_PAGE) ]

/-- Modelled from the spec: the claim's marker list, identical to the
code's except that marker (1) fires on any 30x redirect to the
account-home path, as the spec sentence words it. -/
def claimMarkers : List ((ClsResponse → Bool) × AuthState) :=
  (marker30xHome, AuthState.MICROSOFT_HOME_PAGE) :: codeMarkers.drop 1

/-- Modelled from the spec: the classifier the claim describes
(first marker in `claimMarkers` wins, otherwise unknown). -/
def claimClassifier (r : ClsResponse) : AuthState :=
  firstMatch claimMarkers r

/-- A 301 redirect to the account-home host with an otherwise empty
response: the claim's marker (1) matches, the code's does not. -/
def resp301 : ClsResponse :=
  { status := 301, location := some "https://account.live.com/home",
    body := "", serverData := none, fmHFAction := none, title := "" }

/-! ## Session store: `HttpSession` metadata and cookie-jar export/import
(microsoft-auth.js lines 126-218) -/

/-- JSON values, the embedding of the JavaScript values that flow through
`JSON.parse`/`JSON.stringify` and the metadata map.  Numbers are embedded
as integers (only timestamps and counters occur). -/
inductive JValue where
  | null : JValue
  | bool : Bool → JValue
  | num : Int → JValue
  | str : String → JValue
  | arr : List JValue → JValue
  | obj : List (String × JValue) → JValue
deriving BEq, Repr

/-- JS truthiness of a `JValue` (`[]` and `\x7b\x7d` are truthy). -/
def JValue.truthy : JValue → Bool
  | .null => false
  | .bool b => b
  | .num n => n ≠ 0
  | .str s => s ≠ ""
  | .arr _ => true
  | .obj _ => true

/-- Property access `v[k]`: `none` is JS `undefined` (also for access on a
non-object). -/
def JValue.get : JValue → String → Option JValue
  | .obj fields, k => fields.lookup k
  | _, _ => none

/-- JS truthiness of an `undefined`-or-value. -/
def truthyO : Option JValue → Bool
  | none => false
  | some v => v.truthy

/-- A cookie at the granularity the claims need: `tough-cookie`'s
key/value/domain triple. -/
structure Cookie where
  key : String
  value : String
  domain : String
deriving BEq, DecidableEq, Repr

/-- Embeds `Cookie.prototype.toJSON` (tough-cookie), restricted to the fields the
model carries. -/
def cookieToJSON (c : Cookie) : JValue :=
  .obj [("key", .str c.key), ("value", .str c.value), ("domain", .str c.domain)]

/-- Embeds `CookieJar.prototype.toJSON` (tough-cookie): the jar-native
serialization object whose `cookies` field is the cookie array. -/
def jarToJSON (cookies : List Cookie) : JValue :=
  .obj [("version", .str "tough-cookie@4.1.4"),
        ("storeType", .str "MemoryCookieStore"),
        ("rejectPublicSuffixes", .bool true),
        ("cookies", .arr (cookies.map cookieToJSON))]

/-- Embeds `Cookie.fromJSON` on one serialized cookie; fails on a non-object or
non-string fields. -/
def cookieFromJSON (v : JValue) : Option Cookie :=
  match v.get "key", v.get "value", v.get "domain" with
  | some (.str k), some (.str val), some (.str d) => some ⟨k, val, d⟩
  | _, _, _ => none

/-- Embeds `CookieJar.fromJSON` (tough-cookie): requires a `cookies` array and
deserializes each entry; any failure throws, embedded as `none`. -/
def jarFromJSON (v : JValue) : Option (List Cookie) :=
  match v.get "cookies" with
  | some (.arr l) => l.mapM cookieFromJSON
  | _ => none

/-- A `HttpSession`'s persistent state: the jar's cookie set plus the
`_metadata` map (`none` when `jar._metadata` was never created). -/
structure Session where
  cookies : List Cookie
  metadata : Option (List (String × JValue))
deriving Repr

/-- Method `HttpSession.setMetadata` (lines 126-131): creates `_metadata` on
demand and overwrites the key. -/
def setMetadata (s : Session) (k : String) (v : JValue) : Session :=
  let m := s.metadata.getD []
  { s with metadata := some ((m.filter (fun p => p.1 ≠ k)) ++ [(k, v)]) }

/-- Method `HttpSession.getMetadata` (lines 138-140):
`this.jar._metadata?.[key] || null`. -/
def getMetadata (s : Session) (k : String) : JValue :=
  match s.metadata with
  | none => .null
  | some m =>
    match m.lookup k with
    | none => .null
    | some v => if v.truthy then v else .null

/-- Method `HttpSession.hasMetadata` (lines 147-149):
`this.jar._metadata && key in this.jar._metadata`. -/
def hasMetadata (s : Session) (k : String) : Bool :=
  match s.metadata with
  | none => false
  | some m => (m.lookup k).isSome

/-- Method `HttpSession.exportCookieJar` (lines 177-186), at the level of the
JSON value that `JSON.stringify` serializes (`JSON.parse ∘ JSON.stringify`
is the identity on this embedding). -/
def exportCookieJar (s : Session) (exportedAt : String) : JValue :=
  .obj [("cookies", jarToJSON s.cookies),
        ("metadata", .obj (s.metadata.getD [])),
        ("exportedAt", .str exportedAt)]

/-- The jar `importCookieJar` returns: a rebuilt cookie jar carrying a
`_metadata` value. -/
structure ImportedJar where
  cookies : List Cookie
  metadata : JValue
deriving Repr

/-- Method `HttpSession.importCookieJar` (lines 193-218) on the parsed JSON
value: the `data.cookies && data.metadata` shape test (JS truthiness),
otherwise the raw-jar branch; a `CookieJar.fromJSON` failure is caught and
returns `null` (embedded as `none`). -/
def importCookieJar (data : JValue) : Option ImportedJar :=
  let branch :=
    if truthyO (data.get "cookies") && truthyO (data.get "metadata") then
      ((data.get "cookies").getD .null, (data.get "metadata").getD .null)
    else
      (data, .obj [])
  match jarFromJSON branch.1 with
  | none => none
  | some cs => some ⟨cs, branch.2⟩

/-- The double-wrapped shape named by the claim:
`\x7bcookies: \x7bcookies: ..., metadata: ...\x7d\x7d`. -/
def doubleWrapped (inner : JValue) (meta : JValue) : JValue :=
  .obj [("cookies", .obj [("cookies", inner), ("metadata", meta)])]

/-! ## Redirect-driving loop: `MicrosoftAuth._followRedirects`
(microsoft-auth.js lines 997-1059) -/

/-- The `analysis.type` values the loop's `switch` handles. -/
inductive RedirType where
  | HTTP_REDIRECT
  | MANUAL_REDIRECT
  | MSAL_REDIRECT
  | AUTO_SUBMIT
  | ENTER_PASSWORD
  | FINAL_PAGE
  | UNKNOWN (t : String)
deriving DecidableEq, Repr

/-- Is this one of the types whose case dispatches another HTTP call and
continues the loop? -/
def RedirType.isStep : RedirType → Bool
  | .HTTP_REDIRECT | .MANUAL_REDIRECT | .MSAL_REDIRECT
  | .AUTO_SUBMIT | .ENTER_PASSWORD => true
  | _ => false

/-- The loop's environment over an abstract response type `ρ`:
`analyze` is `EnhancedRedirectHandler.analyzeRedirect`'s `type`, and
`dispatch` is the HTTP call (`get`/`post`) the analysis dictates,
returning the next response. -/
structure RedirEnv (ρ : Type) where
  analyze : ρ → RedirType
  dispatch : ρ → ρ

/-- Outcome of `_followRedirects`: normal return retaining the last
response, or a thrown `AuthError` message. -/
inductive FollowResult (ρ : Type) where
  | done : ρ → FollowResult ρ
  | error : String → FollowResult ρ
deriving DecidableEq, Repr

/-- The `for (let i = 0; i < maxRedirects; i++)` body of
`_followRedirects`, counting how many dispatch steps have been performed;
falling out of the loop throws `Exceeded maximum redirects`. -/
def followAux {ρ : Type} (env : RedirEnv ρ) : ρ → Nat → Nat → FollowResult ρ × Nat
  | _, steps, 0 => (.error "Exceeded maximum redirects", steps)
  | cur, steps, n + 1 =>
    match env.analyze cur with
    | .FINAL_PAGE => (.done cur, steps)
    | .UNKNOWN t => (.error ("Unknown redirect type: " ++ t), steps)
    | _ => followAux env (env.dispatch cur) (steps + 1) n

/-- Method `MicrosoftAuth._followRedirects` with its default bound
`maxRedirects = 20`. -/
def followRedirects {ρ : Type} (env : RedirEnv ρ) (initial : ρ) : FollowResult ρ × Nat :=
  followAux env initial 0 20

/-! ## Initial page fetch: `MicrosoftAuth._getInitialPage`
(microsoft-auth.js lines 783-827) -/

/-- Embeds `AuthError(message, code)`. -/
structure AuthError where
  message : String
  code : String
deriving DecidableEq, Repr

/-- The body of `_getInitialPage` inside the `try`, over an oracle
`classify n` giving the auth state of the `n`-th page fetch (terms-update
and privacy-notice re-enter the function, which the source does with
unbounded recursion; `fuel` bounds the embedding, `none` = the recursion
did not settle within `fuel`). -/
def getInitialPageTry (classify : Nat → AuthState) : Nat → Nat → Option (Except AuthError AuthState)
  | _, 0 => none
  | n, fuel + 1 =>
    let state := classify n
    if state = .MICROSOFT_HOME_PAGE then some (.ok state)
    else if state = .MICROSOFT_UPDATE_TERM then getInitialPageTry classify (n + 1) fuel
    else if state = .PRIVACY_NOTICE then getInitialPageTry classify (n + 1) fuel
    else if ¬ (containsStr state.str "INITIAL_PAGE_OK") then
      some (.error ⟨"Unexpected initial state: " ++ state.str, "INITIAL_PAGE"⟩)
    else some (.ok state)

/-- Method `_getInitialPage` as the caller sees it: the surrounding
`try/catch (error) \x7b console.log(\x7berror\x7d) \x7d` turns every thrown error into a
plain `undefined` return value (embedded as the inner `none`). -/
def getInitialPage (classify : Nat → AuthState) (fuel : Nat) : Option (Option AuthState) :=
  match getInitialPageTry classify 0 fuel with
  | none => none
  | some (.ok s) => some (some s)
  | some (.error _) => some none

/-! ## OAuth token acquisition retry: `MicrosoftAuth._getOutlookTokens`
(microsoft-auth.js lines 1439-1498, retry logic at 1485-1498) -/

/-- What one acquisition attempt's final OAuth redirect yields once its
fragment is parsed as a query string: the `code` parameter and the `error`
parameter (`none` = absent). -/
structure OAuthAttempt where
  code : Option String
  errParam : Option String
deriving DecidableEq, Repr

/-- JS truthiness of `finalUrl.searchParams.get('error')`
(`null` and `""` are both falsy). -/
def errParamTruthy : Option String → Bool
  | none => false
  | some s => s ≠ ""

/-- Result of `_getOutlookTokens`: the exchanged authorization code, or a
thrown `AuthError`. -/
inductive TokResult where
  | success (code : String) : TokResult
  | failure (e : AuthError) : TokResult
deriving DecidableEq, Repr

/-- The code-extraction section of `_getOutlookTokens` (lines 1485-1498),
unfolded over the statically bounded `retry` flag.  `attempt b` is the
final-redirect outcome of the acquisition attempt with `retry = b`; the
returned `Nat` counts how many acquisition attempts ran. -/
def getOutlookTokens (attempt : Bool → OAuthAttempt) : TokResult × Nat :=
  match (attempt false).code with
  | some c => (.success c, 1)
  | none =>
    if errParamTruthy (attempt false).errParam then
      match (attempt true).code with
      | some c => (.success c, 2)
      | none =>
        (.failure ⟨"Could not extract authorization code", "OUTLOOK_TOKENS"⟩, 2)
    else
      (.failure ⟨"Could not extract authorization code", "OUTLOOK_TOKENS"⟩, 1)

/-! ## PKCE generation: `createMicrosoftAuthUrl` (decode.js lines 25-66)

`crypto.createHash("sha256")` and `Buffer.toString("base64")` are Node
primitives; they are embedded here as full executable definitions (FIPS
180-4 SHA-256 on byte lists, RFC 4648 base64), so that the PKCE relation
the claim states is a fact about independently defined functions. -/

/-- 32-bit truncation. -/
def w32 (n : Nat) : Nat := n % 4294967296

/-- 32-bit bitwise complement. -/
def not32 (n : Nat) : Nat := Nat.xor n 4294967295

/-- Right rotation of a 32-bit word. -/
def rotr32 (k n : Nat) : Nat :=
  w32 (Nat.lor (Nat.shiftRight n k) (Nat.shiftLeft n (32 - k)))

/-- SHA-256 round constants. -/
def sha256K : List Nat :=
  [1116352408, 1899447441, 3049323471, 3921009573, 961987163, 1508970993,
   2453635748, 2870763221, 3624381080, 310598401, 607225278, 1426881987,
   1925078388, 2162078206, 2614888103, 3248222580, 3835390401, 4022224774,
   264347078, 604807628, 770255983, 1249150122, 1555081692, 1996064986,
   2554220882, 2821834349, 2952996808, 3210313671, 3336571891, 3584528711,
   113926993, 338241895, 666307205, 773529912, 1294757372, 1396182291,
   1695183700, 1986661051, 2177026350, 2456956037, 2730485921, 2820302411,
   3259730800, 3345764771, 3516065817, 3600352804, 4094571909, 275423344,
   430227734, 506948616, 659060556, 883997877, 958139571, 1322822218,
   1537002063, 1747873779, 1955562222, 2024104815, 2227730452, 2361852424,
   2428436474, 2756734187, 3204031479, 3329325298]

/-- Big-endian bytes of a 64-bit quantity. -/
def be64 (n : Nat) : List Nat :=
  [n / 72057594037927936 % 256, n / 281474976710656 % 256,
   n / 1099511627776 % 256, n / 4294967296 % 256,
   n / 16777216 % 256, n / 65536 % 256, n / 256 % 256, n % 256]

/-- SHA-256 message padding: append `0x80`, zero-fill to 56 mod 64, then
the 64-bit big-endian bit length. -/
def sha256Pad (msg : List Nat) : List Nat :=
  let l := msg.length
  let zeros := (64 + 55 - (l % 64)) % 64
  msg ++ [128] ++ List.replicate zeros 0 ++ be64 (8 * l)

/-- Group bytes into big-endian 32-bit words. -/
def bytesToWords : List Nat → List Nat
  | b0 :: b1 :: b2 :: b3 :: rest =>
    (b0 * 16777216 + b1 * 65536 + b2 * 256 + b3) :: bytesToWords rest
  | _ => []

/-- Split a word list into 16-word blocks (padded SHA-256 input is always
a multiple of 16 words; a short trailing group would become one short
block). -/
def toBlocks : List Nat → List (List Nat)
  | w1 :: w2 :: w3 :: w4 :: w5 :: w6 :: w7 :: w8 ::
    w9 :: w10 :: w11 :: w12 :: w13 :: w14 :: w15 :: w16 :: rest =>
    [w1, w2, w3, w4, w5, w6, w7, w8, w9, w10, w11, w12, w13, w14, w15, w16]
      :: toBlocks rest
  | [] => []
  | short => [short]

/-- Message-schedule extension: starting from the reversed first 16 words,
prepend 48 derived words (accessing W(t-2), W(t-7), W(t-15), W(t-16) at
reversed positions 1, 6, 14, 15). -/
def extendSchedule : Nat → List Nat → List Nat
  | 0, acc => acc
  | n + 1, acc =>
    let wm2 := acc.getD 1 0
    let wm7 := acc.getD 6 0
    let wm15 := acc.getD 14 0
    let wm16 := acc.getD 15 0
    let s0 := Nat.xor (rotr32 7 wm15) (Nat.xor (rotr32 18 wm15) (Nat.shiftRight wm15 3))
    let s1 := Nat.xor (rotr32 17 wm2) (Nat.xor (rotr32 19 wm2) (Nat.shiftRight wm2 10))
    extendSchedule n (w32 (wm16 + s0 + wm7 + s1) :: acc)

/-- The 64-entry message schedule of one block. -/
def schedule (block : List Nat) : List Nat :=
  (extendSchedule 48 block.reverse).reverse

/-- One round of the SHA-256 compression function. -/
def sha256Round (st : List Nat) (kw : Nat × Nat) : List Nat :=
  match st with
  | [a, b, c, d, e, f, g, h] =>
    let S1 := Nat.xor (rotr32 6 e) (Nat.xor (rotr32 11 e) (rotr32 25 e))
    let ch := Nat.xor (Nat.land e f) (Nat.land (not32 e) g)
    let temp1 := w32 (h + S1 + ch + kw.1 + kw.2)
    let S0 := Nat.xor (rotr32 2 a) (Nat.xor (rotr32 13 a) (rotr32 22 a))
    let maj := Nat.xor (Nat.land a b) (Nat.xor (Nat.land a c) (Nat.land b c))
    let temp2 := w32 (S0 + maj)
    [w32 (temp1 + temp2), a, b, c, w32 (d + temp1), e, f, g]
  | other => other

/-- Compress one block into the running hash state. -/
def sha256Block (st : List Nat) (block : List Nat) : List Nat :=
  let out := (sha256K.zip (schedule block)).foldl sha256Round st
  (st.zip out).map (fun p => w32 (p.1 + p.2))

/-- Big-endian bytes of a 32-bit word. -/
def wordBytes (n : Nat) : List Nat :=
  [n / 16777216 % 256, n / 65536 % 256, n / 256 % 256, n % 256]

/-- SHA-256 of a byte list, as a 32-byte list. -/
def sha256 (msg : List Nat) : List Nat :=
  let init := [1779033703, 3144134277, 1013904242, 2773480762,
               1359893119, 2600822924, 528734635, 1541459225]
  let final := (toBlocks (bytesToWords (sha256Pad msg))).foldl sha256Block init
  final.flatMap wordBytes

/-- The base64 alphabet as Node's `Buffer.toString("base64")` uses it. -/
def b64Alphabet : List Char :=
  "ABCDEFGHIJKLMNOPQRSTUVWXYZabcdefghijklmnopqrstuvwxyz0123456789+/".toList

/-- Alphabet lookup. -/
def b64Char (i : Nat) : Char := b64Alphabet.getD i 'A'

/-- RFC 4648 base64 with `=` padding (`Buffer.toString("base64")`). -/
def b64Encode : List Nat → List Char
  | [] => []
  | [b1] => [b64Char (b1 / 4), b64Char (b1 % 4 * 16), '=', '=']
  | [b1, b2] => [b64Char (b1 / 4), b64Char (b1 % 4 * 16 + b2 / 16),
                 b64Char (b2 % 16 * 4), '=']
  | b1 :: b2 :: b3 :: rest =>
    b64Char (b1 / 4) :: b64Char (b1 % 4 * 16 + b2 / 16) ::
    b64Char (b2 % 16 * 4 + b3 / 64) :: b64Char (b3 % 64) :: b64Encode rest

/-- decode.js `base64UrlEncode`:
`.toString("base64").replace(/\+/g,"-").replace(/\//g,"_").replace(/=/g,"")`. -/
def base64UrlEncode (buffer : List Nat) : String :=
  String.mk (((b64Encode buffer).map
    (fun c => if c = '+' then '-' else if c = '/' then '_' else c)).filter
    (fun c => c ≠ '='))

/-- UTF-8 bytes of the (always ASCII) verifier string, as
`hash.update(codeVerifier)` consumes it. -/
def strBytes (s : String) : List Nat := s.toList.map Char.toNat

/-- The PKCE part of `createMicrosoftAuthUrl` (decode.js lines 60-66),
parameterized by the 32 random bytes `crypto.randomBytes(32)` returned:
the code verifier and the code challenge. -/
def createMicrosoftAuthUrl (randomBytes : List Nat) : String × String :=
  let codeVerifier := base64UrlEncode randomBytes
  let codeChallenge := base64UrlEncode (sha256 (strBytes codeVerifier))
  (codeVerifier, codeChallenge)

/-! ## OTP extraction: `OutlookOTPFetcher.extractOTPFromPreview`
(model/db.js lines 123-213)

The source matches a fixed list of JS regexes against the cleaned preview
text.  The regexes use only: case-insensitive literals, `\s*`/`\s+`,
`[:\s]+`, optional literal groups `(?:word\s+)?`, lazy `.*?`, word
boundaries `\b`, and a single greedy digit capture `(\d\x7blo,hi\x7d)`.  They are
embedded as a token list before/after the capture, with a backtracking
matcher that reproduces the JS leftmost-match and greedy/lazy priorities. -/

/-- One regex token (everything the embedded patterns need besides the
digit capture).  Literal characters compare case-insensitively through
`lowerChar`, which is the identity on the case-less characters of the
patterns that lack the `i` flag. -/
inductive Tok where
  | lit : List Char → Tok
  | wsStar : Tok
  | wsPlus : Tok
  | colonWsPlus : Tok
  | optLitWs : List Char → Tok
  | lazyAny : Tok
  | wb : Tok
deriving Repr

/-- A matcher state: the previously consumed character (for `\b`) and the
remaining input. -/
abbrev MState := Option Char × List Char

/-- Consume a case-insensitive literal. -/
def litMatch : List Char → Option Char → List Char → Option MState
  | [], prev, rest => some (prev, rest)
  | _ :: _, _, [] => none
  | p :: ps, _, c :: cs =>
    if lowerChar p == lowerChar c then litMatch ps (some c) cs else none

/-- Greedy repetition of a character class: all stopping points, longest
first (JS greedy backtracking order). -/
def greedyCls (p : Char → Bool) : Option Char → List Char → List MState
  | prev, [] => [(prev, [])]
  | prev, c :: cs =>
    (if p c then greedyCls p (some c) cs else []) ++ [(prev, c :: cs)]

/-- Repetition `X+` = one then `X*`. -/
def plusCls (p : Char → Bool) : Option Char → List Char → List MState
  | _, [] => []
  | _, c :: cs => if p c then greedyCls p (some c) cs else []

/-- Lazy `.*?`: all stopping points, shortest first; `.` does not cross a
newline. -/
def lazyList : Option Char → List Char → List MState
  | prev, [] => [(prev, [])]
  | prev, c :: cs =>
    (prev, c :: cs) :: (if c ≠ '\n' then lazyList (some c) cs else [])

/-- Is an optional boundary character a JS word character? (Out of string
counts as non-word.) -/
def isWordO : Option Char → Bool
  | none => false
  | some c => isWordChar c

/-- All ways one token can consume input, in JS backtracking priority
order. -/
def matchTok : Tok → Option Char → List Char → List MState
  | .lit ps, prev, rest => (litMatch ps prev rest).toList
  | .wsStar, prev, rest => greedyCls isSpaceChar prev rest
  | .wsPlus, prev, rest => plusCls isSpaceChar prev rest
  | .colonWsPlus, prev, rest => plusCls (fun c => c == ':' || isSpaceChar c) prev rest
  | .optLitWs ps, prev, rest =>
    (match litMatch ps prev rest with
     | some s => plusCls isSpaceChar s.1 s.2
     | none => []) ++ [(prev, rest)]
  | .lazyAny, prev, rest => lazyList prev rest
  | .wb, prev, rest =>
    if isWordO prev != isWordO rest.head? then [(prev, rest)] else []

/-- Sequence a token list, preserving priority order. -/
def matchToks : List Tok → Option Char → List Char → List MState
  | [], prev, rest => [(prev, rest)]
  | t :: ts, prev, rest =>
    (matchTok t prev rest).flatMap (fun s => matchToks ts s.1 s.2)

/-- One embedded pattern: tokens before the capture, the greedy capture
`(\d\x7blo,hi\x7d)`, tokens after it. -/
structure Pat where
  pre : List Tok
  lo : Nat
  hi : Nat
  post : List Tok

/-- Length of the leading digit run. -/
def digitRun : List Char → Nat
  | [] => 0
  | c :: cs => if c.isDigit then digitRun cs + 1 else 0

/-- Greedy capture search: try capture length `k` downward (all `k` at
most the digit-run length), succeeding when the post-tokens match what
follows.  Returns the chosen capture length. -/
def tryCapK (post : List Tok) (lo : Nat) (rest : List Char) : Nat → Option Nat
  | 0 => none
  | k + 1 =>
    if k + 1 < lo then none
    else if (matchToks post (some (rest.getD k '0')) (rest.drop (k + 1))).isEmpty then
      tryCapK post lo rest k
    else some (k + 1)

/-- Match a whole pattern at one state reached after the pre-tokens. -/
def patAtState (pat : Pat) (s : MState) : Option (List Char) :=
  match tryCapK pat.post pat.lo s.2 (min pat.hi (digitRun s.2)) with
  | some k => some (s.2.take k)
  | none => none

/-- Match a whole pattern anchored at one input position: run the
pre-tokens (in priority order), then the capture and post-tokens. -/
def patAt (pat : Pat) (prev : Option Char) (rest : List Char) : Option (List Char) :=
  (matchToks pat.pre prev rest).findSome? (patAtState pat)

/-- Leftmost match: try each start position left to right
(`String.prototype.match` without `g`). -/
def patSearch (pat : Pat) : Option Char → List Char → Option (List Char)
  | prev, [] => patAt pat prev []
  | prev, c :: cs =>
    match patAt pat prev (c :: cs) with
    | some r => some r
    | none => patSearch pat (some c) cs

/-- The captured group of the pattern's leftmost match in `text`. -/
def matchPat (pat : Pat) (text : List Char) : Option (List Char) :=
  patSearch pat none text

/-- Literal token from a string. -/
def litT (s : String) : Tok := .lit s.toList

/-- Optional `(?:word\s+)?` token from a string. -/
def olwT (s : String) : Tok := .optLitWs s.toList

/-- The `patterns` array of `extractOTPFromPreview`, in source order.
Entries 1-22 are the labeled English patterns, 23-27 the bare
`\b(\d\x7bn\x7d)\b` fallbacks, 28-30 the bracketed forms, 31-37 the
multi-language labeled patterns. -/
def otpPatterns : List Pat :=
  [ ⟨[litT "security code:", .wsStar], 4, 8, []⟩,
    ⟨[litT "security code", .wsPlus], 4, 8, []⟩,
    ⟨[litT "security code", .wsPlus, litT "is", .wsPlus], 4, 8, []⟩,
    ⟨[litT "verification code:", .wsStar], 4, 8, []⟩,
    ⟨[litT "verification code", .wsPlus], 4, 8, []⟩,
    ⟨[litT "verify", .lazyAny, litT "code:", .wsStar], 4, 8, []⟩,
    ⟨[litT "your code:", .wsStar], 4, 8, []⟩,
    ⟨[litT "your code", .wsPlus], 4, 8, []⟩,
    ⟨[litT "code is:", .wsStar], 4, 8, []⟩,
    ⟨[litT "code is", .wsPlus], 4, 8, []⟩,
    ⟨[litT "code:", .wsStar], 4, 8, []⟩,
    ⟨[litT "one-time code:", .wsStar], 4, 8, []⟩,
    ⟨[litT "one-time code", .wsPlus], 4, 8, []⟩,
    ⟨[litT "otp:", .wsStar], 4, 8, []⟩,
    ⟨[litT "otp", .wsPlus], 4, 8, []⟩,
    ⟨[litT "passcode:", .wsStar], 4, 8, []⟩,
    ⟨[litT "passcode", .wsPlus], 4, 8, []⟩,
    ⟨[litT "pass code:", .wsStar], 4, 8, []⟩,
    ⟨[litT "use", .wsPlus, olwT "the", olwT "following", olwT "security",
       litT "code", .colonWsPlus], 4, 8, []⟩,
    ⟨[litT "please", .wsPlus, litT "use", .lazyAny, litT "code", .colonWsPlus], 4, 8, []⟩,
    ⟨[litT "access code:", .wsStar], 4, 8, []⟩,
    ⟨[litT "access code", .wsPlus], 4, 8, []⟩,
    ⟨[.wb], 6, 6, [.wb]⟩,
    ⟨[.wb], 5, 5, [.wb]⟩,
    ⟨[.wb], 7, 7, [.wb]⟩,
    ⟨[.wb], 8, 8, [.wb]⟩,
    ⟨[.wb], 4, 4, [.wb]⟩,
    ⟨[litT "["], 4, 8, [litT "]"]⟩,
    ⟨[litT "("], 4, 8, [litT ")"]⟩,
    ⟨[litT "\x7b"], 4, 8, [litT "\x7d"]⟩,
    ⟨[litT "código:", .wsStar], 4, 8, []⟩,
    ⟨[litT "code:", .wsStar], 4, 8, []⟩,
    ⟨[litT "код:", .wsStar], 4, 8, []⟩,
    ⟨[litT "代码:", .wsStar], 4, 8, []⟩,
    ⟨[litT "コード:", .wsStar], 4, 8, []⟩,
    ⟨[litT "codice:", .wsStar], 4, 8, []⟩,
    ⟨[litT "kode:", .wsStar], 4, 8, []⟩ ]

/-- Step `.replace(/\r\n/g, ' ')`. -/
def replCRLF : List Char → List Char
  | '\r' :: '\n' :: rest => ' ' :: replCRLF rest
  | c :: rest => c :: replCRLF rest
  | [] => []

/-- Step `.replace(/\n/g, ' ')`. -/
def replLF (l : List Char) : List Char :=
  l.map (fun c => if c = '\n' then ' ' else c)

/-- Step `.replace(/\s+/g, ' ')`: collapse whitespace runs (flag = currently
inside a run). -/
def collapseWs : Bool → List Char → List Char
  | _, [] => []
  | inRun, c :: cs =>
    if isSpaceChar c then
      (if inRun then [] else [' ']) ++ collapseWs true cs
    else c :: collapseWs false cs

/-- The `cleanText` normalization of `extractOTPFromPreview`
(lines 127-131). -/
def cleanText (l : List Char) : List Char :=
  ((((collapseWs false (replLF (replCRLF l))).dropWhile
      isSpaceChar).reverse.dropWhile isSpaceChar).reverse)

/-- Method `OutlookOTPFetcher.extractOTPFromPreview` (lines 123-213): falsy
preview gives `null`; otherwise try every pattern in order, returning the
first capture whose length lies in 4..8 (the range re-check of the
source). -/
def extractOTPFromPreview (preview : String) : Option String :=
  if preview = "" then none
  else
    otpPatterns.findSome? (fun pat =>
      match matchPat pat (cleanText preview.toList) with
      | some code =>
        if 4 ≤ code.length ∧ code.length ≤ 8 then some (String.mk code) else none
      | none => none)

/-- Modelled from the spec: the pattern order the claim asserts — all
labeled patterns (including the multi-language ones, in their listed
order) before any bare-digit fallback; the bracketed forms retain their
relative position among the fallbacks. -/
def claimedPatternOrder : List Pat :=
  otpPatterns.take 22 ++ otpPatterns.drop 30 ++
    (otpPatterns.drop 22).take 8

/-- Modelled from the spec: `extractOTPFromPreview` as the claim orders
the patterns. -/
def claimedExtractOTP (preview : String) : Option String :=
  if preview = "" then none
  else
    claimedPatternOrder.findSome? (fun pat =>
      match matchPat pat (cleanText preview.toList) with
      | some code =>
        if 4 ≤ code.length ∧ code.length ≤ 8 then some (String.mk code) else none
      | none => none)

/-! ## OTP candidate filtering: `extractOTPFromStartupData` (model/db.js
lines 219-324) and `findMicrosoftOTP` (lines 456-559) -/

/-- A conversation entry at the fields both filters read:
`ConversationTopic`, `LastSender?.Mailbox?.EmailAddress`,
`LastDeliveryTime` (as epoch millis after `new Date(...).getTime()`),
`Preview`. -/
structure Conv where
  topic : Option String
  sender : Option String
  deliveryTime : Option Int
  preview : Option String
deriving DecidableEq, Repr

/-- Subject test of `extractOTPFromStartupData` (lines 247-251). -/
def hasSecuritySubject (c : Conv) : Bool :=
  let subject := c.topic.getD ""
  containsLower subject "security code" || containsLower subject "verification code" ||
    containsLower subject "security info" || containsLower subject "verify"

/-- Sender test of `extractOTPFromStartupData` (lines 254-257). -/
def isMicrosoftSender (c : Conv) : Bool :=
  let sender := c.sender.getD ""
  containsLower sender "microsoft" || containsLower sender "accountprotection" ||
    containsLower sender "account-security"

/-- Recency test shared by both paths (lines 260-272 and 513-518): when
`LastDeliveryTime` is absent, `isRecent` stays `true`. -/
def isRecent (now : Int) (maxAge : Int) (c : Conv) : Bool :=
  match c.deliveryTime with
  | none => true
  | some t => now - t ≤ maxAge

/-- The candidate filter of `extractOTPFromStartupData` (lines 245-283);
`maxAge` is the hard-coded `600000` of line 243. -/
def startupFilter (now : Int) (c : Conv) : Bool :=
  hasSecuritySubject c && isMicrosoftSender c && isRecent now 600000 c

/-- Default `senderFilters` of `findMicrosoftOTP` (lines 461-465). -/
def defaultSenderFilters : List String :=
  ["account-security-noreply@accountprotection.microsoft.com",
   "noreply@microsoft.com", "microsoft-noreply@microsoft.com"]

/-- Default `subjectFilters` of `findMicrosoftOTP` (lines 466-471). -/
def defaultSubjectFilters : List String :=
  ["security code", "verification code", "verify", "security info"]

/-- The candidate filter of `findMicrosoftOTP` (lines 501-520); `maxAge`
is caller-supplied (default 600000). -/
def findFilter (maxAge : Int) (senderFilters subjectFilters : List String)
    (now : Int) (c : Conv) : Bool :=
  let sender := c.sender.getD ""
  let subject := c.topic.getD ""
  (senderFilters.any (fun f => containsLower sender f) || containsLower sender "microsoft") &&
    subjectFilters.any (fun f => containsLower subject f) &&
    isRecent now maxAge c

/-- Sort key of the snapshot-path sort (db.js lines 288-291):
`new Date(x.LastDeliveryTime || 0).getTime()` — only there does `|| 0`
make an absent time sort as epoch 0. -/
def sortKey (c : Conv) : Int := c.deliveryTime.getD 0

/-- Descending-by-delivery-time comparator of the snapshot path as a
relation (its `(a, b) => timeB - timeA` comparator over `sortKey` accepts
`a` before `b` exactly when `timeB ≤ timeA`). -/
def descByTime (a b : Conv) : Prop := sortKey b ≤ sortKey a

/-- Decidability of the snapshot sort relation. -/
instance : DecidableRel descByTime := fun a b =>
  inferInstanceAs (Decidable (sortKey b ≤ sortKey a))

/-- The snapshot path's `securityEmails.sort(...)` step (db.js lines
288-292): a stable sort by delivery time descending, absent times as
epoch 0. -/
def sortDesc (l : List Conv) : List Conv :=
  List.insertionSort descByTime l

/-- Comparator of the conversation-search sort (db.js line 522):
`new Date(b.LastDeliveryTime) - new Date(a.LastDeliveryTime)` with no
`|| 0`.  When either side's time is absent, `new Date(undefined)` is an
Invalid Date, the subtraction is NaN, and the sort coerces NaN to +0 — a
tie, so the candidate keeps its relative position. -/
def findCmp (a b : Conv) : Int :=
  match a.deliveryTime, b.deliveryTime with
  | some ta, some tb => tb - ta
  | _, _ => 0

/-- The search-path sort relation: `a` may stay before `b` exactly when
the comparator is not positive. -/
def findCmpLe (a b : Conv) : Prop := findCmp a b ≤ 0

/-- Decidability of the search sort relation. -/
instance : DecidableRel findCmpLe := fun a b =>
  inferInstanceAs (Decidable (findCmp a b ≤ 0))

/-- The search path's `.sort(...)` step (db.js line 522): a stable sort
under `findCmp`, with missing-time comparisons as NaN ties. -/
def findSortDesc (l : List Conv) : List Conv :=
  List.insertionSort findCmpLe l

/-- The conversation-scanning core of `extractOTPFromStartupData`
(lines 245-318): filter, sort descending, then extract from the first
candidate with a truthy preview whose preview yields a code. -/
def extractOTPFromStartupData (now : Int) (conversations : List Conv) :
    Option (String × Conv) :=
  let securityEmails := sortDesc (conversations.filter (startupFilter now))
  securityEmails.findSome? (fun e =>
    match e.preview with
    | some p =>
      if p ≠ "" then (extractOTPFromPreview p).map (fun otp => (otp, e)) else none
    | none => none)

/-- The conversation-scanning core of `findMicrosoftOTP`
(lines 498-541): same shape with the caller-supplied filters. -/
def findMicrosoftOTP (maxAge : Int) (senderFilters subjectFilters : List String)
    (now : Int) (conversations : List Conv) : Option (String × Conv) :=
  let recentEmails :=
    findSortDesc (conversations.filter (findFilter maxAge senderFilters subjectFilters now))
  recentEmails.findSome? (fun e =>
    match e.preview with
    | some p =>
      if p ≠ "" then (extractOTPFromPreview p).map (fun otp => (otp, e)) else none
    | none => none)

/-- The comparator is total. -/
instance : IsTotal Conv descByTime :=
  ⟨fun a b => le_total (sortKey b) (sortKey a)⟩

/-- The comparator is transitive. -/
instance : IsTrans Conv descByTime :=
  ⟨fun _ _ _ h1 h2 => le_trans h2 h1⟩

/-! ## Concrete inputs used by counterexamples and witnesses -/

/-- A well-formed 302 account-home redirect (witness input). -/
def resp302 : ClsResponse :=
  { status := 302, location := some "https://account.live.com/",
    body := "", serverData := none, fmHFAction := none, title := "" }

/-- Always-redirect environment over `Nat` responses (witness input). -/
def envAlwaysRedirect : RedirEnv Nat :=
  { analyze := fun _ => .HTTP_REDIRECT, dispatch := fun r => r + 1 }

/-- A candidate with a matching subject and sender but no
`LastDeliveryTime` (counterexample input). -/
def convNoTime : Conv :=
  { topic := some "Microsoft account security code",
    sender := some "account-security-noreply@accountprotection.microsoft.com",
    deliveryTime := none, preview := some "Security code: 1234" }

/-- Two candidates that both carry delivery times, out of order
(witness input for the search-path sort). -/
def convListTimed : List Conv :=
  [ { topic := some "verification code", sender := some "noreply@microsoft.com",
      deliveryTime := some 5000, preview := none },
    { topic := some "Microsoft account security code", sender := some "microsoft",
      deliveryTime := some 9000, preview := none } ]

/-- Two candidates that both lack a delivery time (witness input for the
search-path NaN-tie behaviour). -/
def convListNone : List Conv :=
  [ { topic := some "security info", sender := some "account-security",
      deliveryTime := none, preview := none },
    { topic := some "verify your account", sender := some "microsoft",
      deliveryTime := none, preview := none } ]

/-- Attempt oracle whose first final redirect has neither a `code` nor an
`error` parameter (counterexample input). -/
def attemptNoCodeNoErr : Bool → OAuthAttempt := fun _ => ⟨none, none⟩

/-- Attempt oracle whose two attempts both fail, the first with an
`error` parameter (witness input). -/
def attemptBothFail : Bool → OAuthAttempt := fun b =>
  if b then ⟨none, none⟩ else ⟨none, some "interaction_required"⟩

/-! # Theorems -/

/-! ### Shared helper lemmas -/

theorem cookie_roundtrip (c : Cookie) : cookieFromJSON (cookieToJSON c) = some c := rfl

theorem jar_roundtrip (cs : List Cookie) : jarFromJSON (jarToJSON cs) = some cs := by
  show (cs.map cookieToJSON).mapM cookieFromJSON = some cs
  induction cs with
  | nil => rfl
  | cons c cs ih =>
    simp only [List.map_cons, List.mapM_cons, cookie_roundtrip, ih, Option.pure_def,
      Option.bind_eq_bind, Option.some_bind]

theorem base64UrlEncode_no_pad (bytes : List Nat) : '=' ∉ (base64UrlEncode bytes).toList := by
  intro hmem
  have h := List.of_mem_filter (p := fun c => c ≠ '=') hmem
  simp at h

/-! ### C1 — response classifier precedence -/

/-- C1 counterexample: a 301 redirect whose `Location` contains the
account-home host.  The claim's marker (1) ("30x redirect") matches, so
the claim predicts already-authenticated; `getAuthState` only tests
`status == 302` and classifies the response as unknown. -/
theorem C1_counterexample :
    getAuthState resp301 = Except.ok AuthState.UNKNOWN_STATE ∧
    claimClassifier resp301 = AuthState.MICROSOFT_HOME_PAGE ∧
    AuthState.UNKNOWN_STATE ≠ AuthState.MICROSOFT_HOME_PAGE :=
  ⟨rfl, rfl, by decide⟩

/-- C1 (amended): `getAuthState` evaluates its page-state markers in the
fixed order (1) 302 redirect to the provider account-home path, (2)-(11)
as listed, returning the state of the first matching marker (first-match
over `codeMarkers`), for every response that does not hit the
302-without-Location `TypeError`. -/
theorem C1_classifier_precedence (r : ClsResponse)
    (h : r.status = 302 → r.location ≠ none) :
    getAuthState r = Except.ok (firstMatch codeMarkers r) := by
  cases hst : r.status == 302 with
  | true =>
    cases hloc : r.location with
    | none =>
      have hs : r.status = 302 := by simpa using hst
      exact absurd hloc (h hs)
    | some l =>
      simp only [getAuthState, firstMatch, codeMarkers, marker302Home, hst, hloc,
        Bool.true_and, if_true]
  | false =>
    cases hloc : r.location with
    | none =>
      simp only [getAuthState, firstMatch, codeMarkers, marker302Home, hst, hloc,
        Bool.false_and, if_false]
      rfl
    | some l =>
      simp only [getAuthState, firstMatch, codeMarkers, marker302Home, hst, hloc,
        Bool.false_and, if_false]
      rfl

/-- C1 witness: the amended theorem applied to a concrete 302 redirect. -/
theorem C1_classifier_precedence_witness :
    (resp302.status = 302 → resp302.location ≠ none) ∧
    getAuthState resp302 = Except.ok (firstMatch codeMarkers resp302) :=
  ⟨fun _ => by decide, C1_classifier_precedence resp302 (fun _ => by decide)⟩

/-! ### C2 — export/import round trip -/

/-- C2: for every session (cookie set plus metadata map) and export
timestamp, `importCookieJar (exportCookieJar S)` succeeds and returns a
jar with the identical cookie set and the identical metadata map (the
never-created map exports as the empty map, exactly as `getAllMetadata`
presents it). -/
theorem C2_export_import_roundtrip (s : Session) (exportedAt : String) :
    importCookieJar (exportCookieJar s exportedAt) =
      some ⟨s.cookies, .obj (s.metadata.getD [])⟩ := by
  show importCookieJar
      (.obj [("cookies", jarToJSON s.cookies),
             ("metadata", .obj (s.metadata.getD [])),
             ("exportedAt", .str exportedAt)]) = _
  simp only [importCookieJar, JValue.get, List.lookup, truthyO]
  simp only [show (("cookies" : String) == "cookies") = true from rfl, if_true]
  show (match jarFromJSON (jarToJSON s.cookies) with
        | none => none
        | some cs => some (ImportedJar.mk cs (.obj (s.metadata.getD [])))) = _
  rw [jar_roundtrip]

/-! ### C3 — accepted serialization shapes -/

/-- C3 counterexample: the double-wrapped shape
`\x7bcookies: \x7bcookies: jar, metadata: \x7b\x7d\x7d\x7d` is NOT unwrapped by
`importCookieJar`: the shape test fails (no top-level `metadata`), the
whole object is handed to `CookieJar.fromJSON`, whose `cookies` field is
not an array, so the import returns `null` — even though the inner
wrapper would import fine on its own. -/
theorem C3_counterexample :
    importCookieJar
        (doubleWrapped (jarToJSON [⟨"MSPAuth", "tok", "login.live.com"⟩]) (.obj [])) = none ∧
    importCookieJar
        (.obj [("cookies", jarToJSON [⟨"MSPAuth", "tok", "login.live.com"⟩]),
               ("metadata", .obj [])]) =
      some ⟨[⟨"MSPAuth", "tok", "login.live.com"⟩], .obj []⟩ :=
  ⟨rfl, rfl⟩

/-- C3 (amended): `importCookieJar` accepts the current
`\x7bcookies, metadata\x7d` wrapper and the raw cookie-jar shape, but the
double-wrapped shape `\x7bcookies: \x7bcookies: ..., metadata: ...\x7d\x7d` is not
detected: it always fails to parse and yields null (the malformed-shape
unwrap exists only in the Rewards-grind importer, not here). -/
theorem C3_import_shapes (cs : List Cookie) (meta : List (String × JValue))
    (inner m : JValue) :
    importCookieJar (.obj [("cookies", jarToJSON cs), ("metadata", .obj meta)]) =
        some ⟨cs, .obj meta⟩ ∧
    importCookieJar (jarToJSON cs) = some ⟨cs, .obj []⟩ ∧
    importCookieJar (doubleWrapped inner m) = none := by
  refine ⟨?_, ?_, ?_⟩
  · simp only [importCookieJar, JValue.get, List.lookup, truthyO]
    simp only [show (("cookies" : String) == "cookies") = true from rfl, if_true]
    show (match jarFromJSON (jarToJSON cs) with
          | none => none
          | some cs2 => some (ImportedJar.mk cs2 (.obj meta))) = _
    rw [jar_roundtrip]
  · simp only [importCookieJar, jarToJSON, JValue.get, List.lookup, truthyO]
    show (match jarFromJSON (jarToJSON cs) with
          | none => none
          | some cs2 => some (ImportedJar.mk cs2 (.obj []))) = _
    rw [jar_roundtrip]
  · rfl

/-! ### C10 — falsy metadata values -/

theorem lookup_append_self (k : String) (v : JValue) :
    ∀ l : List (String × JValue), (∀ p ∈ l, p.1 ≠ k) →
      (l ++ [(k, v)]).lookup k = some v := by
  intro l
  induction l with
  | nil =>
    intro _
    simp [List.lookup]
  | cons p l ih =>
    intro hk
    have hp : p.1 ≠ k := hk p (List.mem_cons_self p l)
    have hbeq : (k == p.1) = false := by
      simp only [beq_eq_false_iff_ne, ne_eq]
      exact fun hkp => hp hkp.symm
    simpa [List.lookup, List.cons_append, hbeq] using
      ih (fun q hq => hk q (List.mem_cons_of_mem p hq))

theorem setMetadata_lookup (s : Session) (k : String) (v : JValue) :
    ((setMetadata s k v).metadata.getD []).lookup k = some v := by
  simp only [setMetadata, Option.getD_some]
  refine lookup_append_self k v _ (fun p hp => ?_)
  have := List.of_mem_filter hp
  simpa using this

/-- C10: a stored falsy metadata value (`false`, `0`, `""`, `null`) is
returned as `null` by `getMetadata` while `hasMetadata` reports the key
present — at the public interface the stored value is indistinguishable
via `getMetadata` from an absent key (whose `getMetadata` is also
`null`). -/
theorem C10_falsy_metadata (s : Session) (k : String) (v : JValue)
    (h : v = .null ∨ v = .bool false ∨ v = .num 0 ∨ v = .str "") :
    getMetadata (setMetadata s k v) k = .null ∧
    hasMetadata (setMetadata s k v) k = true := by
  have hl := setMetadata_lookup s k v
  have htr : v.truthy = false := by
    rcases h with h | h | h | h <;> subst h <;> rfl
  constructor
  · show (match (setMetadata s k v).metadata with
          | none => JValue.null
          | some m => match m.lookup k with
            | none => JValue.null
            | some v => if v.truthy then v else JValue.null) = JValue.null
    simp only [setMetadata] at hl ⊢
    simp only [Option.getD_some] at hl
    rw [hl]
    show (if v.truthy = true then v else JValue.null) = JValue.null
    rw [htr]
    simp
  · show (match (setMetadata s k v).metadata with
          | none => false
          | some m => (m.lookup k).isSome) = true
    simp only [setMetadata] at hl ⊢
    simp only [Option.getD_some] at hl
    rw [hl]
    rfl

/-- C10 witness: storing `false` under a key makes `getMetadata` return
`null` while `hasMetadata` returns `true`. -/
theorem C10_falsy_metadata_witness :
    (JValue.bool false = .null ∨ JValue.bool false = .bool false ∨
      JValue.bool false = .num 0 ∨ JValue.bool false = .str "") ∧
    (getMetadata (setMetadata ⟨[], none⟩ "outlookTokens" (.bool false)) "outlookTokens" = .null ∧
     hasMetadata (setMetadata ⟨[], none⟩ "outlookTokens" (.bool false)) "outlookTokens" = true) :=
  ⟨Or.inr (Or.inl rfl),
   C10_falsy_metadata ⟨[], none⟩ "outlookTokens" (.bool false) (Or.inr (Or.inl rfl))⟩

/-! ### C4 — redirect loop bound -/

theorem followAux_steps_le {ρ : Type} (env : RedirEnv ρ) :
    ∀ (n : Nat) (c : ρ) (s : Nat), (followAux env c s n).2 ≤ s + n := by
  intro n
  induction n with
  | zero =>
    intro c s
    simp [followAux]
  | succ n ih =>
    intro c s
    show (followAux env c s (n + 1)).2 ≤ s + (n + 1)
    unfold followAux
    cases h : env.analyze c with
    | FINAL_PAGE => simp
    | UNKNOWN t => simp
    | HTTP_REDIRECT => exact le_trans (ih (env.dispatch c) (s + 1)) (by omega)
    | MANUAL_REDIRECT => exact le_trans (ih (env.dispatch c) (s + 1)) (by omega)
    | MSAL_REDIRECT => exact le_trans (ih (env.dispatch c) (s + 1)) (by omega)
    | AUTO_SUBMIT => exact le_trans (ih (env.dispatch c) (s + 1)) (by omega)
    | ENTER_PASSWORD => exact le_trans (ih (env.dispatch c) (s + 1)) (by omega)

theorem followAux_always_redirect {ρ : Type} (env : RedirEnv ρ)
    (hall : ∀ x, (env.analyze x).isStep = true) :
    ∀ (n : Nat) (c : ρ) (s : Nat),
      followAux env c s n = (.error "Exceeded maximum redirects", s + n) := by
  intro n
  induction n with
  | zero =>
    intro c s
    simp [followAux]
  | succ n ih =>
    intro c s
    have hc := hall c
    unfold followAux
    cases h : env.analyze c with
    | FINAL_PAGE => rw [h] at hc; exact absurd hc (by simp [RedirType.isStep])
    | UNKNOWN t => rw [h] at hc; exact absurd hc (by simp [RedirType.isStep])
    | HTTP_REDIRECT => rw [ih (env.dispatch c) (s + 1), show s + 1 + n = s + (n + 1) from by omega]
    | MANUAL_REDIRECT => rw [ih (env.dispatch c) (s + 1), show s + 1 + n = s + (n + 1) from by omega]
    | MSAL_REDIRECT => rw [ih (env.dispatch c) (s + 1), show s + 1 + n = s + (n + 1) from by omega]
    | AUTO_SUBMIT => rw [ih (env.dispatch c) (s + 1), show s + 1 + n = s + (n + 1) from by omega]
    | ENTER_PASSWORD => rw [ih (env.dispatch c) (s + 1), show s + 1 + n = s + (n + 1) from by omega]

/-- C4: `_followRedirects` performs at most 20 dispatch steps on every
input, and when every response analyzes to another redirect-like action
it throws `Exceeded maximum redirects` after exactly 20 steps, never
more. -/
theorem C4_redirect_loop_bound {ρ : Type} (env : RedirEnv ρ) (r : ρ) :
    (followRedirects env r).2 ≤ 20 ∧
    ((∀ x, (env.analyze x).isStep = true) →
      followRedirects env r = (.error "Exceeded maximum redirects", 20)) := by
  constructor
  · simpa using followAux_steps_le env 20 r 0
  · intro hall
    simpa using followAux_always_redirect env hall 20 r 0

/-- C4 witness: the bound and the exact-20 error on a concrete
always-redirecting environment. -/
theorem C4_redirect_loop_bound_witness :
    (followRedirects envAlwaysRedirect 0).2 ≤ 20 ∧
    followRedirects envAlwaysRedirect 0 = (.error "Exceeded maximum redirects", 20) :=
  ⟨(C4_redirect_loop_bound envAlwaysRedirect 0).1,
   (C4_redirect_loop_bound envAlwaysRedirect 0).2 (fun _ => rfl)⟩

/-! ### C5 — PKCE verifier/challenge relation -/

theorem sha256_test_vector :
    sha256 (strBytes "abc") =
      [186, 120, 22, 191, 143, 1, 207, 234, 65, 65, 64, 222, 93, 174, 34, 35,
       176, 3, 97, 163, 150, 23, 122, 156, 180, 16, 255, 97, 242, 0, 21, 173] := by
  decide

/-- C5: from any 32 random bytes, `createMicrosoftAuthUrl` produces a
code verifier that is their unpadded base64url encoding and a code
challenge equal to the unpadded base64url encoding of the SHA-256 hash of
the verifier string; neither carries `=` padding. -/
theorem C5_pkce (rb : List Nat) (_h : rb.length = 32) :
    (createMicrosoftAuthUrl rb).1 = base64UrlEncode rb ∧
    (createMicrosoftAuthUrl rb).2 =
      base64UrlEncode (sha256 (strBytes (createMicrosoftAuthUrl rb).1)) ∧
    '=' ∉ (createMicrosoftAuthUrl rb).1.toList ∧
    '=' ∉ (createMicrosoftAuthUrl rb).2.toList :=
  ⟨rfl, rfl, base64UrlEncode_no_pad rb, base64UrlEncode_no_pad _⟩

/-- C5 witness: the relation instantiated at a concrete 32-byte input. -/
theorem C5_pkce_witness :
    (List.replicate 32 0).length = 32 ∧
    ((createMicrosoftAuthUrl (List.replicate 32 0)).1 = base64UrlEncode (List.replicate 32 0) ∧
     (createMicrosoftAuthUrl (List.replicate 32 0)).2 =
       base64UrlEncode (sha256 (strBytes (createMicrosoftAuthUrl (List.replicate 32 0)).1)) ∧
     '=' ∉ (createMicrosoftAuthUrl (List.replicate 32 0)).1.toList ∧
     '=' ∉ (createMicrosoftAuthUrl (List.replicate 32 0)).2.toList) :=
  ⟨by decide, C5_pkce (List.replicate 32 0) (by decide)⟩

/-! ### C6 — swallowed initial-page error -/

/-- C6: on an initial login page that classifies to an unexpected state
(here invalid-credentials), the body of `_getInitialPage` raises
`AuthError("Unexpected initial state: ...", INITIAL_PAGE)`, but the
surrounding `try/catch` logs and discards it, so the function returns
`undefined` and no error ever reaches `login`'s caller. -/
theorem C6_initial_page_swallows_error :
    getInitialPageTry (fun _ => .INVALID_CREDENTIALS) 0 1 =
      some (.error ⟨"Unexpected initial state: INVALID_CREDENTIALS", "INITIAL_PAGE"⟩) ∧
    getInitialPage (fun _ => .INVALID_CREDENTIALS) 1 = some none :=
  ⟨rfl, rfl⟩

/-! ### C7 — OTP pattern order -/

/-- C7 counterexample: on `"1234567 código: 4444"` the only labeled
pattern that matches is the Spanish `código:` one (capture `"4444"`), yet
the code returns `"1234567"` from the bare `\b(\d\x7b7\x7d)\b` fallback, which
the source lists before the multi-language labeled patterns — refuting
the claim that every labeled pattern is tried before any bare fallback. -/
theorem C7_counterexample :
    extractOTPFromPreview "1234567 código: 4444" = some "1234567" ∧
    claimedExtractOTP "1234567 código: 4444" = some "4444" ∧
    some "1234567" ≠ (some "4444" : Option String) :=
  ⟨rfl, rfl, by decide⟩

/-- C7 (amended): the English labeled patterns are tried, in listed
order, before the bare 4-8-digit fallbacks (the bracketed and
multi-language labeled patterns only after those), and the three concrete
extractions behave as the claim states. -/
theorem C7_otp_extraction :
    extractOTPFromPreview "Your Microsoft account security code is: 482913" = some "482913" ∧
    extractOTPFromPreview "no codes here" = none ∧
    extractOTPFromPreview "Use code 073215 to verify" = some "073215" :=
  ⟨rfl, rfl, rfl⟩

/-! ### C8 — OTP candidate filtering -/

/-- C8 counterexample: a conversation with a matching subject and sender
but no `LastDeliveryTime` at all is accepted by both filters (the code
defaults `isRecent` to `true`), refuting "accepted only if its delivery
time is within the caller-supplied maxAge of now" — and on the snapshot
path the window is the hard-coded 600000 ms, not caller-supplied. -/
theorem C8_counterexample :
    startupFilter 1700000000000 convNoTime = true ∧
    findFilter 600000 defaultSenderFilters defaultSubjectFilters 1700000000000 convNoTime = true ∧
    convNoTime.deliveryTime = none :=
  ⟨rfl, rfl, rfl⟩

theorem findCmpLe_iff (a b : Conv) (ha : a.deliveryTime ≠ none)
    (hb : b.deliveryTime ≠ none) : findCmpLe a b ↔ descByTime a b := by
  cases hta : a.deliveryTime with
  | none => exact absurd hta ha
  | some ta =>
    cases htb : b.deliveryTime with
    | none => exact absurd htb hb
    | some tb =>
      simp only [findCmpLe, findCmp, descByTime, sortKey, hta, htb, Option.getD_some]
      omega

theorem findOrderedInsert_eq (a : Conv) (ha : a.deliveryTime ≠ none) :
    ∀ l : List Conv, (∀ c ∈ l, c.deliveryTime ≠ none) →
      List.orderedInsert findCmpLe a l = List.orderedInsert descByTime a l := by
  intro l
  induction l with
  | nil => intro _; rfl
  | cons b l ih =>
    intro hl
    have hb : b.deliveryTime ≠ none := hl b (List.mem_cons_self b l)
    show (if findCmpLe a b then a :: b :: l else b :: List.orderedInsert findCmpLe a l) = _
    by_cases h : descByTime a b
    · rw [if_pos ((findCmpLe_iff a b ha hb).mpr h)]
      exact (if_pos h).symm
    · rw [if_neg (fun hc => h ((findCmpLe_iff a b ha hb).mp hc)),
        ih (fun c hc => hl c (List.mem_cons_of_mem b hc))]
      exact (if_neg h).symm

theorem findSortDesc_eq : ∀ l : List Conv,
    (∀ c ∈ l, c.deliveryTime ≠ none) → findSortDesc l = sortDesc l := by
  intro l
  induction l with
  | nil => intro _; rfl
  | cons a l ih =>
    intro hl
    have ha : a.deliveryTime ≠ none := hl a (List.mem_cons_self a l)
    have hrest : ∀ c ∈ l, c.deliveryTime ≠ none :=
      fun c hc => hl c (List.mem_cons_of_mem a hc)
    show List.orderedInsert findCmpLe a (findSortDesc l) =
      List.orderedInsert descByTime a (sortDesc l)
    rw [ih hrest]
    exact findOrderedInsert_eq a ha (sortDesc l)
      (fun c hc => hrest c ((List.perm_insertionSort descByTime l).mem_iff.mp hc))

theorem findSortDesc_ties : ∀ l : List Conv,
    (∀ c ∈ l, c.deliveryTime = none) → findSortDesc l = l := by
  intro l
  induction l with
  | nil => intro _; rfl
  | cons a l ih =>
    intro hl
    have ha : a.deliveryTime = none := hl a (List.mem_cons_self a l)
    show List.orderedInsert findCmpLe a (findSortDesc l) = a :: l
    rw [ih (fun c hc => hl c (List.mem_cons_of_mem a hc))]
    cases l with
    | nil => rfl
    | cons x xs =>
      have h : findCmpLe a x := by
        cases hx : x.deliveryTime <;> simp [findCmpLe, findCmp, ha, hx]
      show (if findCmpLe a x then a :: x :: xs else x :: List.orderedInsert findCmpLe a xs) = _
      rw [if_pos h]

/-- C8 (amended): on both retrieval paths a candidate is accepted exactly
when its subject contains a security-code keyword (case-insensitively),
its sender contains a recognized provider keyword, and it either has no
delivery time (accepted regardless of age) or its delivery time is within
the age window — the caller-supplied `maxAge` on the search path but the
hard-coded 600000 ms on the snapshot path.  Accepted candidates are then
permuted into delivery-time-descending order before extraction; on the
snapshot path a missing time sorts as epoch 0 (its comparator reads
`LastDeliveryTime || 0`), while on the search path a comparison touching
a missing time is NaN, treated as a tie, so such candidates keep their
relative positions (in particular the sort is descending when every
candidate has a time, and the identity when none has). -/
theorem C8_candidate_filtering (now maxAge : Int) (sf subf : List String)
    (c : Conv) (l : List Conv) :
    (startupFilter now c = true ↔
      (hasSecuritySubject c = true ∧ isMicrosoftSender c = true ∧
        (c.deliveryTime = none ∨ ∃ t, c.deliveryTime = some t ∧ now - t ≤ 600000))) ∧
    (findFilter maxAge sf subf now c = true ↔
      (((∃ f ∈ sf, containsLower (c.sender.getD "") f = true) ∨
          containsLower (c.sender.getD "") "microsoft" = true) ∧
        (∃ f ∈ subf, containsLower (c.topic.getD "") f = true) ∧
        (c.deliveryTime = none ∨ ∃ t, c.deliveryTime = some t ∧ now - t ≤ maxAge))) ∧
    List.Sorted descByTime (sortDesc l) ∧
    List.Perm (sortDesc l) l ∧
    List.Perm (findSortDesc l) l ∧
    ((∀ x ∈ l, x.deliveryTime ≠ none) → List.Sorted descByTime (findSortDesc l)) ∧
    ((∀ x ∈ l, x.deliveryTime = none) → findSortDesc l = l) := by
  refine ⟨?_, ?_, ?_, ?_, ?_, ?_, ?_⟩
  · simp only [startupFilter, Bool.and_eq_true, isRecent]
    cases hd : c.deliveryTime with
    | none => simp [hd]
    | some t => simp [hd, and_assoc]
  · simp only [findFilter, Bool.and_eq_true, Bool.or_eq_true, isRecent,
      List.any_eq_true]
    cases hd : c.deliveryTime with
    | none => simp [hd]
    | some t => simp [hd, and_assoc]
  · exact List.sorted_insertionSort descByTime l
  · exact List.perm_insertionSort descByTime l
  · exact List.perm_insertionSort findCmpLe l
  · intro h
    rw [findSortDesc_eq l h]
    exact List.sorted_insertionSort descByTime l
  · exact findSortDesc_ties l

/-- C8 witness: the search-path sort conjuncts applied to a concrete
fully-timed candidate list and a concrete list with no delivery times. -/
theorem C8_candidate_filtering_witness :
    (∀ x ∈ convListTimed, x.deliveryTime ≠ none) ∧
    List.Sorted descByTime (findSortDesc convListTimed) ∧
    (∀ x ∈ convListNone, x.deliveryTime = none) ∧
    findSortDesc convListNone = convListNone :=
  ⟨by decide,
   (C8_candidate_filtering 0 0 [] [] convNoTime convListTimed).2.2.2.2.2.1 (by decide),
   by decide,
   (C8_candidate_filtering 0 0 [] [] convNoTime convListNone).2.2.2.2.2.2 (by decide)⟩

/-! ### C9 — OAuth acquisition retry -/

/-- C9 counterexample: when the final redirect has no `code` and also no
`error` parameter, no retry happens at all — `_getOutlookTokens` throws
after a single attempt, refuting "missing code with no prior retry always
triggers one silent re-entry". -/
theorem C9_counterexample :
    (attemptNoCodeNoErr false).code = none ∧
    getOutlookTokens attemptNoCodeNoErr =
      (.failure ⟨"Could not extract authorization code", "OUTLOOK_TOKENS"⟩, 1) :=
  ⟨rfl, rfl⟩

/-- C9 (amended): at most two acquisition attempts ever run; a first
attempt with a code succeeds immediately; a missing code with a truthy
`error` parameter and no prior retry triggers exactly one full retry,
whose own failure is fatal; a missing code without an `error` parameter
is fatal immediately with no retry. -/
theorem C9_token_retry (attempt : Bool → OAuthAttempt) :
    (getOutlookTokens attempt).2 ≤ 2 ∧
    (∀ c, (attempt false).code = some c → getOutlookTokens attempt = (.success c, 1)) ∧
    ((attempt false).code = none → errParamTruthy (attempt false).errParam = true →
      ((∀ c, (attempt true).code = some c → getOutlookTokens attempt = (.success c, 2)) ∧
       ((attempt true).code = none →
         getOutlookTokens attempt =
           (.failure ⟨"Could not extract authorization code", "OUTLOOK_TOKENS"⟩, 2)))) ∧
    ((attempt false).code = none → errParamTruthy (attempt false).errParam = false →
      getOutlookTokens attempt =
        (.failure ⟨"Could not extract authorization code", "OUTLOOK_TOKENS"⟩, 1)) := by
  refine ⟨?_, ?_, ?_, ?_⟩
  · unfold getOutlookTokens
    cases h0 : (attempt false).code with
    | some c => simp
    | none =>
      cases he : errParamTruthy (attempt false).errParam with
      | false => simp
      | true =>
        cases h1 : (attempt true).code with
        | some c => simp
        | none => simp
  · intro c hc
    unfold getOutlookTokens
    rw [hc]
  · intro h0 he
    constructor
    · intro c hc
      unfold getOutlookTokens
      rw [h0, he, hc]
      simp
    · intro h1
      unfold getOutlookTokens
      rw [h0, he, h1]
      simp
  · intro h0 he
    unfold getOutlookTokens
    rw [h0, he]
    simp

/-- C9 witness: both attempts fail, the first with an `error` marker —
the retry runs once and its failure is fatal at exactly two attempts. -/
theorem C9_token_retry_witness :
    ((attemptBothFail false).code = none ∧
     errParamTruthy (attemptBothFail false).errParam = true ∧
     (attemptBothFail true).code = none) ∧
    getOutlookTokens attemptBothFail =
      (.failure ⟨"Could not extract authorization code", "OUTLOOK_TOKENS"⟩, 2) :=
  ⟨⟨rfl, rfl, rfl⟩, ((C9_token_retry attemptBothFail).2.2.1 rfl rfl).2 rfl⟩

end MsAuth
